import Mathlib

/-!
Verification of the photo-cache and content-retrieval core of the
`backend/services/drive_service.py` module (class `DriveService`).

The embedding models:
* `fetch_page`   — `DriveService._fetch_page`: one remote list call, with
  remote errors degraded to an empty page and no continuation token;
* the folder cache (`ensure_cache`, `_background_refresh_task`,
  `get_random_photo`) as a labelled transition system whose atomic steps
  mirror the critical sections guarded by `self._lock` in the source
  (each `with self._lock:` block is one step);
* `get_file_content` — the content fetcher, as a pure function over an
  environment recording the outcomes of the external calls it makes
  (metadata fetch, plain HTTP GET of the resized thumbnail URL, image
  verification, authorized raw download, JPEG re-encode).

Machine bytes are modelled as `List Nat`; fallible calls return `Except`
or `Option` values supplied by the environment.
-/

namespace DriveService

/-- Record for one remote file, as requested by `_fetch_page`
(`fields="nextPageToken, files(id, name, webContentLink, webViewLink,
thumbnailLink, mimeType)"`). -/
structure FileRecord where
  id : String
  name : String
  mimeType : String
  webContentLink : Option String
  webViewLink : Option String
  thumbnailLink : Option String
deriving DecidableEq

/-- Body of a successful `files().list(...)` response. -/
structure ListResponse where
  files : List FileRecord
  nextPageToken : Option String
deriving DecidableEq

/-- Outcome of `DriveService._fetch_page(folder_id, page_token)`, given the
result of the underlying `files().list(...).execute()` call: a successful
response yields its files and continuation token, and an `HttpError` is
caught and degraded to `([], None)`. The folder id and page token only
shape the remote request, which the `result` argument stands for. -/
def fetch_page (folder_id : String) (page_token : Option String)
    (result : Except String ListResponse) : List FileRecord × Option String :=
  match folder_id, page_token, result with
  | _, _, .ok r => (r.files, r.nextPageToken)
  | _, _, .error _ => ([], none)

/-- Occurrence test on character lists: `needle` occurs somewhere in the
haystack (at any position). -/
def hasSub (needle : List Char) : List Char → Bool
  | [] => needle.isEmpty
  | c :: rest => needle.isPrefixOf (c :: rest) || hasSub needle rest

/-- Python's substring test `needle in hay`. -/
def strContains (hay needle : String) : Bool :=
  hasSub needle.data hay.data

/-- Python's `s.startswith(p)`. -/
def strStartsWith (s p : String) : Bool :=
  p.data.isPrefixOf s.data

/-- Characters strictly before the first occurrence of `needle` (the whole
list when `needle` does not occur). -/
def takeUntilSub (needle : List Char) : List Char → List Char
  | [] => []
  | c :: rest =>
    if needle.isPrefixOf (c :: rest) then []
    else c :: takeUntilSub needle rest

/-- Python's `hay.split(needle)[0]`: the text before the first occurrence
of the separator. -/
def splitHead (hay needle : String) : String :=
  ⟨takeUntilSub needle.data hay.data⟩

/-- ASCII lower-casing of one character, as Python's `str.lower` acts on
the ASCII MIME strings involved here. -/
def charLower (c : Char) : Char :=
  if 65 ≤ c.toNat ∧ c.toNat ≤ 90 then Char.ofNat (c.toNat + 32) else c

/-- Python's `s.lower()` on ASCII strings. -/
def strLower (s : String) : String :=
  ⟨s.data.map charLower⟩

/-- Test from `get_file_content`:
`"heif" in mime_type.lower() or "heic" in mime_type.lower()`. -/
def isHeicMime (mime : String) : Bool :=
  strContains (strLower mime) "heif" || strContains (strLower mime) "heic"

/-- Rewriting of the thumbnail link done by `get_file_content` before the
fast-path request (lines 206–214 of the source; the earlier `base_link`
computation at lines 188–196 is dead, being unconditionally overwritten):
`if "?s=" in thumbnail_link: download_url = split("?s=")[0] + "?s=1600"`,
`elif "=s" in thumbnail_link: download_url = split("=s")[0] + "=s1600"`,
`else: download_url = thumbnail_link + "=s1600"`. -/
def rewriteThumbLink (thumbnail_link : String) : String :=
  if strContains thumbnail_link "?s=" then
    splitHead thumbnail_link "?s=" ++ "?s=1600"
  else if strContains thumbnail_link "=s" then
    splitHead thumbnail_link "=s" ++ "=s1600"
  else
    thumbnail_link ++ "=s1600"

/-- Metadata returned by `files().get(fileId=..., fields="id, name,
mimeType, thumbnailLink").execute()`; `mimeType` is read with default `""`
and `thumbnailLink` with default `None` in the source. -/
structure FileMeta where
  mimeType : String
  thumbnailLink : Option String
deriving DecidableEq

/-- Response to the plain HTTP GET of the thumbnail URL. -/
structure ThumbResponse where
  contentType : String
  body : List Nat
deriving DecidableEq

/-- Environment recording the outcomes of the external calls
`get_file_content` can make for one file id. `httpGet url = none` stands
for any exception on the request (timeout, transport error, or
`raise_for_status`). `verify b = true` means `Image.open` + `verify()`
succeeded on bytes `b`. `download` is the outcome of `_download_raw`
(whose `raise_for_status` makes it fallible). `save b q` is the outcome
of re-encoding bytes `b` to JPEG at quality `q`. -/
structure FetchEnv where
  meta : Except String FileMeta
  httpGet : String → Option ThumbResponse
  verify : List Nat → Bool
  download : Except String (List Nat)
  save : List Nat → Nat → Option (List Nat)

/-- Thumbnail fast path of `get_file_content` (the `try:` block at lines
216–242): GET the rewritten URL; any transport failure, a `Content-Type`
not starting with `"image/"`, or failed image verification abandons the
fast path (`none`); otherwise the downloaded bytes are returned with MIME
type fixed to `"image/jpeg"`. -/
def tryThumbnail (env : FetchEnv) (thumbnail_link : String) :
    Option (List Nat × String) :=
  match env.httpGet (rewriteThumbLink thumbnail_link) with
  | none => none
  | some resp =>
    if strStartsWith resp.contentType "image/" then
      if env.verify resp.body then some (resp.body, "image/jpeg") else none
    else none

/-- Slow path of `get_file_content` (lines 244–263): authorized full
download via `_download_raw` (whose failure propagates — it is not inside
any `try`), then HEIC/HEIF transcode to JPEG quality 85 with the original
bytes and MIME type returned if the transcode raises. -/
def fullDownload (env : FetchEnv) (mime_type : String) :
    Except String (List Nat × String) :=
  match env.download with
  | .error e => .error e
  | .ok raw =>
    if isHeicMime mime_type then
      match env.save raw 85 with
      | some out => .ok (out, "image/jpeg")
      | none => .ok (raw, mime_type)
    else .ok (raw, mime_type)

/-- Embedding of `DriveService.get_file_content(file_id)`: metadata fetch
(whose failure is re-raised), then the thumbnail fast path when a
thumbnail link is present, falling back to the full download. -/
def get_file_content (env : FetchEnv) : Except String (List Nat × String) :=
  match env.meta with
  | .error e => .error e
  | .ok m =>
    match m.thumbnailLink with
    | some link =>
      match tryThumbnail env link with
      | some r => .ok r
      | none => fullDownload env m.mimeType
    | none => fullDownload env m.mimeType

/-- With the metadata fetched and no thumbnail link, `get_file_content`
goes straight to the slow path. -/
lemma get_file_content_no_thumb (env : FetchEnv) (m : FileMeta)
    (hm : env.meta = .ok m) (hl : m.thumbnailLink = none) :
    get_file_content env = fullDownload env m.mimeType := by
  simp only [get_file_content, hm, hl]

/-- With the metadata fetched and a successful thumbnail fast path,
`get_file_content` returns the fast-path result. -/
lemma get_file_content_thumb_hit (env : FetchEnv) (m : FileMeta)
    (link : String) (r : List Nat × String) (hm : env.meta = .ok m)
    (hl : m.thumbnailLink = some link)
    (ht : tryThumbnail env link = some r) :
    get_file_content env = .ok r := by
  simp only [get_file_content, hm, hl, ht]

/-- With the metadata fetched and a failed thumbnail fast path,
`get_file_content` falls back to the slow path. -/
lemma get_file_content_thumb_miss (env : FetchEnv) (m : FileMeta)
    (link : String) (hm : env.meta = .ok m)
    (hl : m.thumbnailLink = some link)
    (ht : tryThumbnail env link = none) :
    get_file_content env = fullDownload env m.mimeType := by
  simp only [get_file_content, hm, hl, ht]

/-- Slow path with a successful download is always a result, never an
error. -/
lemma fullDownload_ok (env : FetchEnv) (mt : String) (raw : List Nat)
    (hd : env.download = .ok raw) :
    (fullDownload env mt).isOk = true := by
  rcases hs : env.save raw 85 with _ | out <;>
    by_cases hh : isHeicMime mt <;>
    simp [fullDownload, hd, hs, hh, Except.isOk, Except.toBool]

/-- Slow-path errors are exactly download errors. -/
lemma fullDownload_error (env : FetchEnv) (mt : String) (e : String)
    (hfd : fullDownload env mt = .error e) :
    env.download = .error e := by
  rcases hdl : env.download with e' | raw
  · simp only [fullDownload, hdl] at hfd
    injection hfd with h1
    rw [h1]
  · exfalso
    have := fullDownload_ok env mt raw hdl
    rw [hfd] at this
    simp [Except.isOk, Except.toBool] at this

/-! ## Folder cache as a labelled transition system

The shared mutable state of `DriveService` is `self._cache` (a dict from
folder id to file list), `self._is_refreshing` (a dict from folder id to
bool, read with default `False`), and the set of running background
refresh threads. Every access to the two dicts in the source happens
inside `with self._lock:`, so each critical section is one atomic step of
the transition system; the page fetches of a background thread happen
outside the lock and are separate steps that do not touch shared state.
`syncFetches` is ghost instrumentation counting, per folder, the
synchronous first-page fetches performed inside `ensure_cache`. -/

/-- Private state of one running `_background_refresh_task` thread:
its folder, its private `all_files` accumulator, and `phase`:
`some tok` when the loop will next call `_fetch_page` with `page_token =
tok`, `none` when pagination is exhausted and the final locked commit is
pending. -/
structure BgTask where
  folder : String
  acc : List FileRecord
  phase : Option (Option String)
deriving DecidableEq

/-- Task freshly spawned by `threading.Thread(target=self._background_refresh_task, args=(folder_id,))`:
`all_files = []`, first fetch with `page_token = None`. -/
def newTask (folder_id : String) : BgTask := ⟨folder_id, [], some none⟩

/-- Global state: the two dicts, the running background tasks, and the
ghost counter of synchronous first-page fetches. `cache f = none` models
`f not in self._cache`; `refreshing` models `self._is_refreshing.get(f, False)`. -/
structure SysState where
  cache : String → Option (List FileRecord)
  refreshing : String → Bool
  tasks : List BgTask
  syncFetches : String → Nat

/-- Pointwise update of a dict, `d[x] = v`. -/
def upd {α : Type} (g : String → α) (x : String) (v : α) : String → α :=
  fun y => if y = x then v else g y

/-- State at process start: both dicts empty, no background thread. -/
def initState : SysState :=
  { cache := fun _ => none
    refreshing := fun _ => false
    tasks := []
    syncFetches := fun _ => 0 }

/-- Embedding of `DriveService.ensure_cache(folder_id)`; the whole body
runs under `self._lock`, so it is one atomic step. `res` is the result of
the synchronous `_fetch_page(folder_id)` call, consulted only on the
branch that performs it. Branches, in source order:
(1) cached list present and non-empty — return;
(2) `self._is_refreshing.get(folder_id, False)` — return;
(3) set the refreshing flag; if the folder has no cache entry at all,
fetch the first page synchronously and store it, and if its continuation
token is `None` clear the flag and return without spawning;
(4) otherwise spawn a background refresh thread. -/
def ensure_cache (s : SysState) (f : String)
    (res : List FileRecord × Option String) : SysState :=
  if ((s.cache f).getD []).isEmpty = false then s
  else if s.refreshing f = true then s
  else
    match s.cache f, res.2 with
    | none, none =>
      { s with
        refreshing := upd (upd s.refreshing f true) f false
        cache := upd s.cache f (some res.1)
        syncFetches := upd s.syncFetches f (s.syncFetches f + 1) }
    | none, some _ =>
      { s with
        refreshing := upd s.refreshing f true
        cache := upd s.cache f (some res.1)
        syncFetches := upd s.syncFetches f (s.syncFetches f + 1)
        tasks := newTask f :: s.tasks }
    | some _, _ =>
      { s with
        refreshing := upd s.refreshing f true
        tasks := newTask f :: s.tasks }

/-- Iteration of the `while True` loop of `_background_refresh_task`:
`files, next_token = self._fetch_page(folder_id, page_token)`,
`all_files.extend(files)`, and the loop breaks when `next_token is None`.
This runs outside the lock and touches only the task's private state. -/
def taskFetch (t : BgTask) (files : List FileRecord)
    (next : Option String) : BgTask :=
  { t with
    acc := t.acc ++ files
    phase := match next with
      | none => none
      | some nt => some (some nt) }

/-- Number of background refresh tasks currently in flight for folder `f`. -/
def fcount (l : List BgTask) (f : String) : Nat :=
  (l.filter (fun t => t.folder == f)).length

/-- Observable label of a step. -/
inductive StepLabel where
  | ensure (f : String) (res : List FileRecord × Option String)
  | fetch (f : String) (tok : Option String) (files : List FileRecord)
      (next : Option String)
  | commit (f : String) (acc : List FileRecord)
deriving DecidableEq

/-- One atomic step of the system. `ensure` is the locked body of
`ensure_cache` (the read in `get_random_photo` mutates nothing and needs
no step). `fetch` is one unlocked loop iteration of a running background
task; the page contents are chosen by the environment. `commit` is the
final `with self._lock:` block of `_background_refresh_task`:
`self._cache[folder_id] = all_files; self._is_refreshing[folder_id] = False`. -/
inductive Step : SysState → StepLabel → SysState → Prop where
  | ensure (s : SysState) (f : String) (res : List FileRecord × Option String) :
      Step s (.ensure f res) (ensure_cache s f res)
  | fetch (s : SysState) (t : BgTask) (l₁ l₂ : List BgTask)
      (tok : Option String) (files : List FileRecord) (next : Option String)
      (hT : s.tasks = l₁ ++ t :: l₂) (hP : t.phase = some tok) :
      Step s (.fetch t.folder tok files next)
        { s with tasks := l₁ ++ taskFetch t files next :: l₂ }
  | commit (s : SysState) (t : BgTask) (l₁ l₂ : List BgTask)
      (hT : s.tasks = l₁ ++ t :: l₂) (hP : t.phase = none) :
      Step s (.commit t.folder t.acc)
        { s with
          tasks := l₁ ++ l₂
          cache := upd s.cache t.folder (some t.acc)
          refreshing := upd s.refreshing t.folder false }

/-- State reachable from process start by some interleaving of steps. -/
def Reachable (s : SysState) : Prop :=
  Relation.ReflTransGen (fun a b => ∃ l, Step a l b) initState s

/-- Embedding of `random.choice(files)` guarded by `if not files: return
None`: the caller supplies the random draw as an index, reduced modulo
the list length. -/
def choice (files : List FileRecord) (idx : Nat) : Option FileRecord :=
  if h : files.length = 0 then none
  else some (files.get ⟨idx % files.length, Nat.mod_lt _ (Nat.pos_of_ne_zero h)⟩)

/-- Embedding of `DriveService.get_random_photo(folder_id)`: run
`ensure_cache`, read `self._cache.get(folder_id)` under the lock, return
`None` when the entry is missing or empty, else a uniformly random
element. -/
def get_random_photo (s : SysState) (f : String)
    (res : List FileRecord × Option String) (idx : Nat) : Option FileRecord :=
  choice (((ensure_cache s f res).cache f).getD []) idx

/-! ## Invariants of the transition system -/

@[simp]
lemma upd_same {α : Type} (g : String → α) (x : String) (v : α) :
    upd g x v x = v := by
  simp [upd]

@[simp]
lemma upd_ne {α : Type} (g : String → α) (x : String) (v : α) (y : String)
    (h : y ≠ x) : upd g x v y = g y := by
  simp [upd, h]

lemma fcount_append (l₁ l₂ : List BgTask) (f : String) :
    fcount (l₁ ++ l₂) f = fcount l₁ f + fcount l₂ f := by
  simp [fcount, List.filter_append]

lemma fcount_cons (t : BgTask) (l : List BgTask) (f : String) :
    fcount (t :: l) f = (if t.folder = f then 1 else 0) + fcount l f := by
  by_cases h : t.folder = f <;>
    simp [fcount, List.filter_cons, h, Nat.add_comm]

/-- Safety invariant: per folder, at most one background task is in
flight, none is in flight when the refreshing flag is clear, and at most
one synchronous first-page fetch has ever been performed (none while the
folder has no cache entry). -/
def Inv (s : SysState) : Prop := ∀ f : String,
  fcount s.tasks f ≤ 1 ∧
  (s.refreshing f = false → fcount s.tasks f = 0) ∧
  s.syncFetches f ≤ 1 ∧
  (s.cache f = none → s.syncFetches f = 0)

lemma inv_init : Inv initState := by
  intro f
  simp [Inv, initState, fcount]

/-- Branch (1) of `ensure_cache`: a present, non-empty cached list means
an immediate return. -/
lemma ensure_cache_filled (s : SysState) (f : String)
    (res : List FileRecord × Option String)
    (h1 : ((s.cache f).getD []).isEmpty = false) :
    ensure_cache s f res = s := by
  simp [ensure_cache, h1]

/-- Branch (2) of `ensure_cache`: a refresh already in flight means an
immediate return. -/
lemma ensure_cache_refreshing (s : SysState) (f : String)
    (res : List FileRecord × Option String)
    (h1 : ((s.cache f).getD []).isEmpty = true)
    (h2 : s.refreshing f = true) :
    ensure_cache s f res = s := by
  simp [ensure_cache, h1, h2]

/-- Branch (3) of `ensure_cache`, one-page folder: never-seen folder, the
synchronous first page has no continuation token, so the flag is cleared
again and no thread is spawned. -/
lemma ensure_cache_sync_done (s : SysState) (f : String)
    (files : List FileRecord)
    (h1 : s.cache f = none) (h2 : s.refreshing f = false) :
    ensure_cache s f (files, none) =
      { s with
        refreshing := upd (upd s.refreshing f true) f false
        cache := upd s.cache f (some files)
        syncFetches := upd s.syncFetches f (s.syncFetches f + 1) } := by
  simp [ensure_cache, h1, h2]

/-- Branch (3) of `ensure_cache`, multi-page folder: never-seen folder
whose synchronous first page has a continuation token, so a background
thread is spawned. -/
lemma ensure_cache_sync_spawn (s : SysState) (f : String)
    (files : List FileRecord) (tok : String)
    (h1 : s.cache f = none) (h2 : s.refreshing f = false) :
    ensure_cache s f (files, some tok) =
      { s with
        refreshing := upd s.refreshing f true
        cache := upd s.cache f (some files)
        syncFetches := upd s.syncFetches f (s.syncFetches f + 1)
        tasks := newTask f :: s.tasks } := by
  simp [ensure_cache, h1, h2]

/-- Branch (4) of `ensure_cache`: a cache entry exists but is empty, so
no synchronous fetch happens and a background thread is spawned. -/
lemma ensure_cache_empty_spawn (s : SysState) (f : String)
    (res : List FileRecord × Option String)
    (h1 : s.cache f = some []) (h2 : s.refreshing f = false) :
    ensure_cache s f res =
      { s with
        refreshing := upd s.refreshing f true
        tasks := newTask f :: s.tasks } := by
  obtain ⟨files, nxt⟩ := res
  cases nxt <;> simp [ensure_cache, h1, h2]

lemma inv_ensure (s : SysState) (f : String)
    (res : List FileRecord × Option String) (h : Inv s) :
    Inv (ensure_cache s f res) := by
  by_cases h1 : ((s.cache f).getD []).isEmpty = false
  · rw [ensure_cache_filled s f res h1]
    exact h
  · have h1' : ((s.cache f).getD []).isEmpty = true := by
      simpa using h1
    by_cases h2 : s.refreshing f = true
    · rw [ensure_cache_refreshing s f res h1' h2]
      exact h
    · have hrf : s.refreshing f = false := by
        simpa using h2
      have hcount0 : fcount s.tasks f = 0 := (h f).2.1 hrf
      obtain ⟨files, nxt⟩ := res
      rcases hcf : s.cache f with _ | l
      · rcases nxt with _ | tok
        · -- sync fetch, whole folder in one page: no spawn
          rw [ensure_cache_sync_done s f files hcf hrf]
          intro g
          by_cases hg : g = f
          · subst hg
            refine ⟨(h g).1, fun _ => hcount0, ?_, ?_⟩
            · simp [(h g).2.2.2 hcf]
            · intro hceq
              simp at hceq
          · simpa [hg] using h g
        · -- sync fetch, more pages: one spawn
          rw [ensure_cache_sync_spawn s f files tok hcf hrf]
          intro g
          by_cases hg : g = f
          · subst hg
            refine ⟨?_, ?_, ?_, ?_⟩
            · simp [fcount_cons, newTask, hcount0]
            · intro hfalse
              simp at hfalse
            · simp [(h g).2.2.2 hcf]
            · intro hceq
              simp at hceq
          · have hgf : ¬ (newTask f).folder = g := by
              simp [newTask]
              exact fun a => hg a.symm
            refine ⟨?_, ?_, ?_, ?_⟩ <;>
              simp only [fcount_cons, if_neg hgf, Nat.zero_add,
                upd_ne _ _ _ _ hg]
            · exact (h g).1
            · exact (h g).2.1
            · exact (h g).2.2.1
            · exact (h g).2.2.2
      · -- existing empty entry: one spawn, no sync fetch
        have hl : l = [] := by
          rw [hcf] at h1'
          simpa using h1'
        subst hl
        rw [ensure_cache_empty_spawn s f (files, nxt) hcf hrf]
        intro g
        by_cases hg : g = f
        · subst hg
          refine ⟨?_, ?_, (h g).2.2.1, ?_⟩
          · simp [fcount_cons, newTask, hcount0]
          · intro hfalse
            simp at hfalse
          · intro hceq
            rw [hcf] at hceq
            simp at hceq
        · have hgf : ¬ (newTask f).folder = g := by
            simp [newTask]
            exact fun a => hg a.symm
          refine ⟨?_, ?_, (h g).2.2.1, (h g).2.2.2⟩ <;>
            simp only [fcount_cons, if_neg hgf, Nat.zero_add,
              upd_ne _ _ _ _ hg]
          · exact (h g).1
          · exact (h g).2.1

lemma inv_step (s s' : SysState) (l : StepLabel) (h : Inv s)
    (hs : Step s l s') : Inv s' := by
  cases hs with
  | ensure f res =>
    exact inv_ensure s f res h
  | fetch t l₁ l₂ tok files next hT hP =>
    intro g
    have hcnt : fcount (l₁ ++ taskFetch t files next :: l₂) g
        = fcount s.tasks g := by
      rw [hT, fcount_append, fcount_append, fcount_cons, fcount_cons]
      simp [taskFetch]
    have := h g
    simpa [hcnt] using this
  | commit t l₁ l₂ hT hP =>
    intro g
    have hcnt : fcount s.tasks g
        = fcount l₁ g + ((if t.folder = g then 1 else 0) + fcount l₂ g) := by
      rw [hT, fcount_append, fcount_cons]
    refine ⟨?_, ?_, (h g).2.2.1, ?_⟩
    · have := (h g).1
      rw [hcnt] at this
      show fcount (l₁ ++ l₂) g ≤ 1
      rw [fcount_append]
      omega
    · intro hflag
      show fcount (l₁ ++ l₂) g = 0
      rw [fcount_append]
      by_cases hg : t.folder = g
      · have := (h g).1
        rw [hcnt, if_pos hg] at this
        omega
      · have hflag' : s.refreshing g = false := by
          simpa [upd_ne _ _ _ _ (fun a => hg a.symm)] using hflag
        have := (h g).2.1 hflag'
        rw [hcnt] at this
        omega
    · intro hceq
      by_cases hg : t.folder = g
      · subst hg
        simp at hceq
      · refine (h g).2.2.2 ?_
        simpa [upd_ne _ _ _ _ (fun a => hg a.symm)] using hceq

lemma reachable_inv (s : SysState) (h : Reachable s) : Inv s := by
  induction h with
  | refl => exact inv_init
  | tail _ hstep ih =>
    obtain ⟨l, hs⟩ := hstep
    exact inv_step _ _ _ ih hs

/-! ## Claims about the content fetcher -/

/-- C4: for every folder identifier and page token, a remote error in the
underlying list call makes `_fetch_page` return an empty file list and a
null continuation token instead of raising; being a total function, it
propagates no error. -/
theorem fetch_page_error_degrades (folder_id : String)
    (page_token : Option String) (e : String) :
    fetch_page folder_id page_token (.error e) = ([], none) := rfl

/-- Environment showing a full-download failure after a successful
metadata fetch: no thumbnail link, and `_download_raw` raises. -/
def c1BadEnv : FetchEnv :=
  { meta := .ok ⟨"image/png", none⟩
    httpGet := fun _ => none
    verify := fun _ => false
    download := .error "HTTPError 404"
    save := fun _ _ => none }

/-- C1 counterexample: the metadata fetch succeeds, yet `get_file_content`
surfaces a hard error — the failure of the authorized full-file download
(`_download_raw` calls `raise_for_status()` outside any `try`), refuting
the claim that only the initial metadata fetch can raise. -/
theorem get_file_content_download_error_surfaces :
    c1BadEnv.meta = .ok ⟨"image/png", none⟩ ∧
    get_file_content c1BadEnv = .error "HTTPError 404" :=
  ⟨rfl, rfl⟩

/-- C1 (amended): after a successful metadata fetch, `get_file_content`
returns a (bytes, MIME type) result whenever the full download succeeds
(and already whenever the thumbnail fast path succeeds, the download then
being unreached), and any hard error it raises past the metadata fetch is
exactly a failure of the authorized full-file download; thumbnail
fast-path failures and transcode failures are never surfaced. -/
theorem get_file_content_error_surface (env : FetchEnv) (m : FileMeta)
    (hm : env.meta = .ok m) :
    (∀ raw, env.download = .ok raw → (get_file_content env).isOk = true) ∧
    (∀ link r, m.thumbnailLink = some link → tryThumbnail env link = some r →
      get_file_content env = .ok r) ∧
    (∀ e, get_file_content env = .error e → env.download = .error e) := by
  refine ⟨?_, ?_, ?_⟩
  · intro raw hd
    rcases hl : m.thumbnailLink with _ | link
    · rw [get_file_content_no_thumb env m hm hl]
      exact fullDownload_ok env m.mimeType raw hd
    · rcases ht : tryThumbnail env link with _ | r
      · rw [get_file_content_thumb_miss env m link hm hl ht]
        exact fullDownload_ok env m.mimeType raw hd
      · rw [get_file_content_thumb_hit env m link r hm hl ht]
        rfl
  · intro link r hl ht
    exact get_file_content_thumb_hit env m link r hm hl ht
  · intro e he
    rcases hl : m.thumbnailLink with _ | link
    · rw [get_file_content_no_thumb env m hm hl] at he
      exact fullDownload_error env m.mimeType e he
    · rcases ht : tryThumbnail env link with _ | r
      · rw [get_file_content_thumb_miss env m link hm hl ht] at he
        exact fullDownload_error env m.mimeType e he
      · rw [get_file_content_thumb_hit env m link r hm hl ht] at he
        exact absurd he (by simp)

/-- Environment where the metadata fetch and the full download both
succeed, with no thumbnail link. -/
def c1OkEnv : FetchEnv :=
  { meta := .ok ⟨"image/png", none⟩
    httpGet := fun _ => none
    verify := fun _ => false
    download := .ok [7, 7, 7]
    save := fun _ _ => none }

/-- Witness for the amended C1 at a concrete environment. -/
theorem get_file_content_error_surface_witness :
    (get_file_content c1OkEnv).isOk = true :=
  (get_file_content_error_surface c1OkEnv ⟨"image/png", none⟩ rfl).1
    [7, 7, 7] rfl

/-- C7: with a thumbnail link present, `get_file_content` issues the GET
against `rewriteThumbLink link` (the link with its size parameter
rewritten to the fixed target 1600, trying the `?s=` shape, then the `=s`
shape, then appending `=s1600`); when the response has an image
Content-Type and its bytes verify as an image, it returns exactly the
downloaded bytes with MIME type `image/jpeg`. -/
theorem get_file_content_thumbnail_fast_path (env : FetchEnv)
    (m : FileMeta) (link : String) (resp : ThumbResponse)
    (hm : env.meta = .ok m) (hl : m.thumbnailLink = some link)
    (hg : env.httpGet (rewriteThumbLink link) = some resp)
    (hct : strStartsWith resp.contentType "image/" = true)
    (hv : env.verify resp.body = true) :
    get_file_content env = .ok (resp.body, "image/jpeg") ∧
    rewriteThumbLink link =
      (if strContains link "?s=" then
        splitHead link "?s=" ++ "?s=1600"
      else if strContains link "=s" then
        splitHead link "=s" ++ "=s1600"
      else link ++ "=s1600") := by
  constructor
  · refine get_file_content_thumb_hit env m link (resp.body, "image/jpeg")
      hm hl ?_
    simp only [tryThumbnail, hg, hct, hv, if_true]
  · rfl

/-- Environment with a thumbnail link in the common `...=s220` shape and a
thumbnail server answering only the rewritten `...=s1600` URL with a
valid JPEG. -/
def c7Env : FetchEnv :=
  { meta := .ok ⟨"image/jpeg", some "https://lh3.example.com/abc=s220"⟩
    httpGet := fun u =>
      if u = "https://lh3.example.com/abc=s1600" then
        some ⟨"image/jpeg", [1, 2, 3]⟩
      else none
    verify := fun _ => true
    download := .error "unreached"
    save := fun _ _ => none }

/-- Witness for C7 at a concrete environment: the rewritten URL is
answered and the exact bytes come back as `image/jpeg`. -/
theorem get_file_content_thumbnail_fast_path_witness :
    get_file_content c7Env = .ok ([1, 2, 3], "image/jpeg") :=
  (get_file_content_thumbnail_fast_path c7Env
    ⟨"image/jpeg", some "https://lh3.example.com/abc=s220"⟩
    "https://lh3.example.com/abc=s220" ⟨"image/jpeg", [1, 2, 3]⟩
    rfl rfl (by decide) (by decide) (by decide)).1

/-- Environment refuting C8 as stated: a HEIC file whose thumbnail
response is an HTML page; the fallback download succeeds and the
transcode succeeds. -/
def c8Env : FetchEnv :=
  { meta := .ok ⟨"image/heic", some "https://lh3.example.com/abc=s220"⟩
    httpGet := fun _ => some ⟨"text/html", [0]⟩
    verify := fun _ => true
    download := .ok [2, 3]
    save := fun _ _ => some [9] }

/-- C8 counterexample: the thumbnail response has Content-Type
`text/html`, the full download yields bytes `[2, 3]` and the original
MIME type is `image/heic`; yet `get_file_content` returns the transcoded
bytes `[9]` with MIME `image/jpeg`, not the full-download bytes with the
original MIME type, because the HEIC transcode of the slow path still
applies after the fallback. -/
theorem get_file_content_heic_thumb_fallback_counterexample :
    c8Env.meta = .ok ⟨"image/heic", some "https://lh3.example.com/abc=s220"⟩ ∧
    strStartsWith "text/html" "image/" = false ∧
    c8Env.download = .ok [2, 3] ∧
    get_file_content c8Env = .ok ([9], "image/jpeg") ∧
    get_file_content c8Env ≠ .ok ([2, 3], "image/heic") := by
  refine ⟨rfl, by decide, rfl, by rfl, ?_⟩
  intro h
  rw [show get_file_content c8Env = .ok ([9], "image/jpeg") from by rfl]
    at h
  injection h with h1
  injection h1 with h2 h3
  exact absurd h2 (by decide)

/-- C8 (amended): for a file whose thumbnail response has a non-image
Content-Type, `get_file_content` falls back to the authorized full-file
download; when that download succeeds and the original MIME type is not
the legacy HEIC/HEIF format, it returns the full-download bytes together
with the file's original MIME type. -/
theorem get_file_content_nonimage_thumb_fallback (env : FetchEnv)
    (m : FileMeta) (link : String) (resp : ThumbResponse) (raw : List Nat)
    (hm : env.meta = .ok m) (hl : m.thumbnailLink = some link)
    (hg : env.httpGet (rewriteThumbLink link) = some resp)
    (hct : strStartsWith resp.contentType "image/" = false)
    (hd : env.download = .ok raw)
    (hmime : isHeicMime m.mimeType = false) :
    get_file_content env = .ok (raw, m.mimeType) := by
  rw [get_file_content_thumb_miss env m link hm hl
    (by simp [tryThumbnail, hg, hct])]
  simp [fullDownload, hd, hmime]

/-- Environment for the amended C8: PNG file, HTML thumbnail response,
successful fallback download. -/
def c8OkEnv : FetchEnv :=
  { meta := .ok ⟨"image/png", some "https://lh3.example.com/abc=s220"⟩
    httpGet := fun _ => some ⟨"text/html", [0]⟩
    verify := fun _ => true
    download := .ok [2, 3]
    save := fun _ _ => none }

/-- Witness for the amended C8 at a concrete environment. -/
theorem get_file_content_nonimage_thumb_fallback_witness :
    get_file_content c8OkEnv = .ok ([2, 3], "image/png") :=
  get_file_content_nonimage_thumb_fallback c8OkEnv
    ⟨"image/png", some "https://lh3.example.com/abc=s220"⟩
    "https://lh3.example.com/abc=s220" ⟨"text/html", [0]⟩ [2, 3]
    rfl rfl rfl (by decide) rfl (by decide)

/-- C9: for a HEIC/HEIF file with no thumbnail link whose download
succeeds, `get_file_content` returns the JPEG re-encode at quality 85
with MIME `image/jpeg` when the transcode succeeds, and the original
bytes with the original MIME type unchanged when the transcode raises. -/
theorem get_file_content_heic_transcode (env : FetchEnv) (m : FileMeta)
    (raw : List Nat) (hm : env.meta = .ok m)
    (hl : m.thumbnailLink = none) (hmime : isHeicMime m.mimeType = true)
    (hd : env.download = .ok raw) :
    (∀ out, env.save raw 85 = some out →
      get_file_content env = .ok (out, "image/jpeg")) ∧
    (env.save raw 85 = none →
      get_file_content env = .ok (raw, m.mimeType)) := by
  constructor
  · intro out hs
    rw [get_file_content_no_thumb env m hm hl]
    simp [fullDownload, hd, hmime, hs]
  · intro hs
    rw [get_file_content_no_thumb env m hm hl]
    simp [fullDownload, hd, hmime, hs]

/-- Environment for C9 with a succeeding transcode. -/
def c9Env : FetchEnv :=
  { meta := .ok ⟨"image/heic", none⟩
    httpGet := fun _ => none
    verify := fun _ => true
    download := .ok [4, 5]
    save := fun _ _ => some [8, 8] }

/-- Environment for C9 with a raising transcode. -/
def c9FailEnv : FetchEnv :=
  { meta := .ok ⟨"image/heic", none⟩
    httpGet := fun _ => none
    verify := fun _ => true
    download := .ok [4, 5]
    save := fun _ _ => none }

/-- Witness for C9 at concrete environments: one transcode success, one
transcode failure. -/
theorem get_file_content_heic_transcode_witness :
    get_file_content c9Env = .ok ([8, 8], "image/jpeg") ∧
    get_file_content c9FailEnv = .ok ([4, 5], "image/heic") :=
  ⟨(get_file_content_heic_transcode c9Env ⟨"image/heic", none⟩ [4, 5]
      rfl rfl (by decide) rfl).1 [8, 8] rfl,
   (get_file_content_heic_transcode c9FailEnv ⟨"image/heic", none⟩ [4, 5]
      rfl rfl (by decide) rfl).2 rfl⟩

/-! ## Claims about the folder cache -/

/-- A call on a folder whose refresh is already in flight is a no-op. -/
lemma ensure_cache_noop_of_refreshing (s : SysState) (f : String)
    (res : List FileRecord × Option String) (h : s.refreshing f = true) :
    ensure_cache s f res = s := by
  by_cases h1 : ((s.cache f).getD []).isEmpty = false
  · exact ensure_cache_filled s f res h1
  · exact ensure_cache_refreshing s f res (by simpa using h1) h

/-- A call for folder `f` leaves every other folder's cache entry,
refreshing flag and fetch count untouched. -/
lemma ensure_cache_preserves_other (s : SysState) (f : String)
    (res : List FileRecord × Option String) (g : String) (hg : g ≠ f) :
    (ensure_cache s f res).cache g = s.cache g ∧
    (ensure_cache s f res).refreshing g = s.refreshing g ∧
    (ensure_cache s f res).syncFetches g = s.syncFetches g := by
  by_cases h1 : ((s.cache f).getD []).isEmpty = false
  · rw [ensure_cache_filled s f res h1]
    exact ⟨rfl, rfl, rfl⟩
  · have h1' : ((s.cache f).getD []).isEmpty = true := by
      simpa using h1
    by_cases h2 : s.refreshing f = true
    · rw [ensure_cache_refreshing s f res h1' h2]
      exact ⟨rfl, rfl, rfl⟩
    · have hrf : s.refreshing f = false := by
        simpa using h2
      obtain ⟨files, nxt⟩ := res
      rcases hcf : s.cache f with _ | l
      · rcases nxt with _ | tok
        · rw [ensure_cache_sync_done s f files hcf hrf]
          refine ⟨?_, ?_, ?_⟩ <;> simp [upd, hg]
        · rw [ensure_cache_sync_spawn s f files tok hcf hrf]
          refine ⟨?_, ?_, ?_⟩ <;> simp [upd, hg]
      · have hl : l = [] := by
          rw [hcf] at h1'
          simpa using h1'
        subst hl
        rw [ensure_cache_empty_spawn s f (files, nxt) hcf hrf]
        refine ⟨rfl, ?_, rfl⟩
        simp [upd, hg]

/-- C2: in every reachable state — i.e. after any interleaving of
`ensure_cache` bodies, background-task page fetches and commits, each
atomic exactly because the source guards it with the single
`self._lock` — each folder has at most one background refresh task in
flight and has undergone at most one synchronous first-page fetch over
the whole history. -/
theorem ensure_cache_single_flight (s : SysState) (h : Reachable s)
    (f : String) :
    fcount s.tasks f ≤ 1 ∧ s.syncFetches f ≤ 1 :=
  ⟨(reachable_inv s h f).1, (reachable_inv s h f).2.2.1⟩

/-- Witness for C2 at the state reached by one `ensure_cache` call that
fetched a first page with a continuation token and spawned the refresh. -/
theorem ensure_cache_single_flight_witness :
    fcount (ensure_cache initState "folder" ([], some "tok")).tasks
      "folder" ≤ 1 ∧
    (ensure_cache initState "folder" ([], some "tok")).syncFetches
      "folder" ≤ 1 :=
  ensure_cache_single_flight _
    (Relation.ReflTransGen.single
      ⟨_, Step.ensure initState "folder" ([], some "tok")⟩) "folder"

/-- C3: a background refresh accumulates pages privately and commits
atomically. In every reachable state: a page-fetch step changes no shared
state at all (the task's accumulator is private); a commit step installs
the task's fully accumulated list and clears the refreshing flag in the
same atomic step; and while a folder's refresh task is in flight, no step
other than its own commit changes that folder's cached list or flag, so a
reader only ever sees the pre-refresh list until the full replacement
appears. -/
theorem background_refresh_atomic (s s' : SysState) (l : StepLabel)
    (hr : Reachable s) (hs : Step s l s') :
    (∀ f tok files next, l = .fetch f tok files next →
      s'.cache = s.cache ∧ s'.refreshing = s.refreshing ∧
      s'.syncFetches = s.syncFetches) ∧
    (∀ f acc, l = .commit f acc →
      s'.cache f = some acc ∧ s'.refreshing f = false) ∧
    (∀ f, fcount s.tasks f = 1 → fcount s'.tasks f = 1 →
      s'.cache f = s.cache f ∧ s'.refreshing f = s.refreshing f) := by
  have hinv := reachable_inv s hr
  cases hs with
  | ensure f res =>
    refine ⟨?_, ?_, ?_⟩
    · intro f' tok files next hlbl
      exact StepLabel.noConfusion hlbl
    · intro f' acc hlbl
      exact StepLabel.noConfusion hlbl
    · intro g h1 h2
      by_cases hg : g = f
      · subst hg
        have hrt : s.refreshing g = true := by
          cases hb : s.refreshing g
          · have := (hinv g).2.1 hb
            omega
          · rfl
        rw [ensure_cache_noop_of_refreshing s g res hrt]
        exact ⟨rfl, rfl⟩
      · have hpres := ensure_cache_preserves_other s f res g hg
        exact ⟨hpres.1, hpres.2.1⟩
  | fetch t l₁ l₂ tok files next hT hP =>
    refine ⟨?_, ?_, ?_⟩
    · intro f' tok' files' next' hlbl
      exact ⟨rfl, rfl, rfl⟩
    · intro f' acc hlbl
      exact StepLabel.noConfusion hlbl
    · intro g h1 h2
      exact ⟨rfl, rfl⟩
  | commit t l₁ l₂ hT hP =>
    refine ⟨?_, ?_, ?_⟩
    · intro f' tok files next hlbl
      exact StepLabel.noConfusion hlbl
    · intro f' acc hlbl
      injection hlbl with hf hacc
      subst hf
      subst hacc
      constructor <;> simp [upd]
    · intro g h1 h2
      by_cases hg : t.folder = g
      · exfalso
        have hcnt : fcount s.tasks g
            = fcount l₁ g + ((if t.folder = g then 1 else 0) + fcount l₂ g) := by
          rw [hT, fcount_append, fcount_cons]
        rw [if_pos hg] at hcnt
        have h2' : fcount (l₁ ++ l₂) g = fcount l₁ g + fcount l₂ g :=
          fcount_append l₁ l₂ g
        have h2'' : fcount (l₁ ++ l₂) g = 1 := h2
        omega
      · have hg2 : ¬ g = t.folder := fun a => hg a.symm
        constructor <;> simp [upd, hg2]

/-- Intermediate states for the C3 witness: one `ensure_cache` call
spawns a refresh task, then that task takes one page-fetch step. -/
def c3S1 : SysState := ensure_cache initState "a" ([], some "t2")

/-- State after the in-flight task fetched one page of the C3 witness. -/
def c3S2 : SysState :=
  { c3S1 with tasks := [] ++ taskFetch (newTask "a") [] (some "t3") :: [] }

/-- Witness for C3: the concrete page-fetch step out of `c3S1` leaves all
shared state unchanged. -/
theorem background_refresh_atomic_witness :
    c3S2.cache = c3S1.cache ∧ c3S2.refreshing = c3S1.refreshing ∧
    c3S2.syncFetches = c3S1.syncFetches :=
  (background_refresh_atomic c3S1 c3S2 _
    (Relation.ReflTransGen.single
      ⟨_, Step.ensure initState "a" ([], some "t2")⟩)
    (Step.fetch c3S1 (newTask "a") [] [] none [] (some "t3") rfl rfl)).1
    "a" none [] (some "t3") rfl

/-- C5: on a never-seen folder whose synchronous first page is empty with
no continuation token, `get_random_photo` returns `None`, the folder is
cached as the empty list, the refreshing flag ends up cleared, and no
background task is spawned. -/
theorem get_random_photo_empty_folder (s : SysState) (f : String)
    (idx : Nat) (h1 : s.cache f = none) (h2 : s.refreshing f = false) :
    get_random_photo s f ([], none) idx = none ∧
    (ensure_cache s f ([], none)).cache f = some [] ∧
    (ensure_cache s f ([], none)).refreshing f = false ∧
    (ensure_cache s f ([], none)).tasks = s.tasks := by
  have he := ensure_cache_sync_done s f [] h1 h2
  refine ⟨?_, ?_, ?_, ?_⟩
  · simp [get_random_photo, he, choice, upd]
  · simp [he, upd]
  · simp [he, upd]
  · simp [he]

/-- Witness for C5 at the initial state. -/
theorem get_random_photo_empty_folder_witness :
    get_random_photo initState "f" ([], none) 0 = none ∧
    (ensure_cache initState "f" ([], none)).cache "f" = some [] ∧
    (ensure_cache initState "f" ([], none)).refreshing "f" = false ∧
    (ensure_cache initState "f" ([], none)).tasks = initState.tasks :=
  get_random_photo_empty_folder initState "f" 0 rfl rfl

/-- Uniform selection at an in-range index. -/
lemma choice_eq (files : List FileRecord) (idx : Nat)
    (h : idx < files.length) :
    choice files idx = some (files.get ⟨idx, h⟩) := by
  have hne : files.length ≠ 0 := by omega
  have hmod : idx % files.length = idx := Nat.mod_eq_of_lt h
  simp only [choice, dif_neg hne]
  congr 1
  congr 1
  apply Fin.ext
  exact hmod

/-- C6: `get_random_photo` reads the list cached (after `ensure_cache`)
for the folder under the lock; on an empty or absent list it returns
`None`, and on a list of `N ≥ 1` records the uniformly drawn index `idx <
N` selects exactly the `idx`-th record, which belongs to the list; for
distinct records each record is hit by exactly one of the `N`
equiprobable indices, i.e. is chosen with probability `1/N`. -/
theorem get_random_photo_uniform (s : SysState) (f : String)
    (res : List FileRecord × Option String) (idx : Nat)
    (files : List FileRecord)
    (hfiles : ((ensure_cache s f res).cache f).getD [] = files) :
    (files = [] → get_random_photo s f res idx = none) ∧
    (∀ h : idx < files.length,
      get_random_photo s f res idx = some (files.get ⟨idx, h⟩) ∧
      files.get ⟨idx, h⟩ ∈ files) ∧
    (files.Nodup → ∀ r ∈ files,
      (Finset.univ.filter
        (fun i : Fin files.length => files.get i = r)).card = 1) := by
  refine ⟨?_, ?_, ?_⟩
  · intro hempty
    simp [get_random_photo, hfiles, hempty, choice]
  · intro h
    constructor
    · rw [get_random_photo, hfiles]
      exact choice_eq files idx h
    · exact List.get_mem files idx h
  · intro hnd r hr
    obtain ⟨i, hi⟩ := List.get_of_mem hr
    rw [Finset.card_eq_one]
    refine ⟨i, ?_⟩
    ext j
    simp only [Finset.mem_filter, Finset.mem_univ, true_and,
      Finset.mem_singleton]
    constructor
    · intro hj
      exact List.nodup_iff_injective_get.mp hnd (hj.trans hi.symm)
    · intro hj
      subst hj
      exact hi

/-- First record of the C6 witness cache. -/
def c6r1 : FileRecord := ⟨"1", "a.jpg", "image/jpeg", none, none, none⟩

/-- Second record of the C6 witness cache. -/
def c6r2 : FileRecord := ⟨"2", "b.jpg", "image/jpeg", none, none, none⟩

/-- State with a pre-populated two-record cache for folder `"a"`. -/
def c6State : SysState :=
  { cache := fun g => if g = "a" then some [c6r1, c6r2] else none
    refreshing := fun _ => false
    tasks := []
    syncFetches := fun _ => 0 }

/-- Witness for C6: on the two-record cache, index 1 picks the second
record, and the first record is hit by exactly one of the two indices. -/
theorem get_random_photo_uniform_witness :
    get_random_photo c6State "a" ([], none) 1 = some c6r2 ∧
    (Finset.univ.filter
      (fun i : Fin ([c6r1, c6r2].length) => [c6r1, c6r2].get i = c6r1)).card
      = 1 :=
  ⟨((get_random_photo_uniform c6State "a" ([], none) 1 [c6r1, c6r2]
      (by rfl)).2.1 (by decide)).1,
   (get_random_photo_uniform c6State "a" ([], none) 1 [c6r1, c6r2]
      (by rfl)).2.2 (by decide) c6r1 (by decide)⟩

/-- C10: on a folder cached as the empty list with the refreshing flag
clear, `ensure_cache` performs no synchronous first-page fetch (the entry
exists), sets the refreshing flag, spawns a background refresh task, and
leaves the cache entry unchanged; so `get_random_photo` in such a state
triggers a fresh background refresh and returns `None` immediately. -/
theorem ensure_cache_empty_entry_respawn (s : SysState) (f : String)
    (res : List FileRecord × Option String) (idx : Nat)
    (h1 : s.cache f = some []) (h2 : s.refreshing f = false) :
    (ensure_cache s f res).syncFetches f = s.syncFetches f ∧
    (ensure_cache s f res).refreshing f = true ∧
    (ensure_cache s f res).tasks = newTask f :: s.tasks ∧
    (ensure_cache s f res).cache f = s.cache f ∧
    get_random_photo s f res idx = none := by
  have he := ensure_cache_empty_spawn s f res h1 h2
  refine ⟨by rw [he], ?_, by rw [he], by rw [he], ?_⟩
  · rw [he]
    simp [upd]
  · simp [get_random_photo, he, h1, choice]

/-- State with folder `"a"` cached as empty and not refreshing. -/
def c10State : SysState :=
  { cache := fun g => if g = "a" then some [] else none
    refreshing := fun _ => false
    tasks := []
    syncFetches := fun _ => 0 }

/-- Witness for C10 at a concrete state cached as empty. -/
theorem ensure_cache_empty_entry_respawn_witness :
    (ensure_cache c10State "a" ([], none)).refreshing "a" = true ∧
    (ensure_cache c10State "a" ([], none)).tasks = [newTask "a"] ∧
    get_random_photo c10State "a" ([], none) 0 = none :=
  ⟨(ensure_cache_empty_entry_respawn c10State "a" ([], none) 0
      (by rfl) rfl).2.1,
   (ensure_cache_empty_entry_respawn c10State "a" ([], none) 0
      (by rfl) rfl).2.2.1,
   (ensure_cache_empty_entry_respawn c10State "a" ([], none) 0
      (by rfl) rfl).2.2.2.2⟩

end DriveService
